import Mathlib

/-!
Verification of the Leads-Scrapper pipeline (scrapper.js, slm-client.js).

Shallow embedding: the pure data-shaping functions of the source are
translated to Lean definitions; browser observations (page contents,
network payloads, service responses) are passed in as explicit inputs.
JS strings are Lean strings, JS numbers that only ever carry ratings are
rationals, JS null for an optional string is modelled by Option or by the
empty string where the source itself collapses null and "" (falsiness).
-/

namespace LeadsScrapper

/-- A lead record as built by the extraction passes of scrapper.js.
Fields follow the object literals at scrapper.js lines 807-825, 907-921,
1383-1396 and 1705-1720. `rating` is a JS number there; a rational keeps
its ordering exactly for the sign test in qualifyLead. -/
structure LeadRecord where
  name : String := ""
  phone : String := ""
  address : String := ""
  category : String := ""
  website : String := ""
  email : String := ""
  description : String := ""
  rating : ℚ := 0
  ratingCount : String := "0"
  source : String := ""
  detailUrl : String := ""
  detailsNeeded : Bool := true
  deriving DecidableEq, Repr

/-- JS String.prototype.toLowerCase restricted to the character-by-character
case map (Char.toLower), as applied on line 141 of scrapper.js. -/
def jsToLower (s : String) : String :=
  String.mk (s.data.map Char.toLower)

/-- JS .replace of every whitespace run by the empty string, i.e. dropping
every whitespace character (scrapper.js line 141). -/
def jsStripWhitespace (s : String) : String :=
  String.mk (s.data.filter (fun c => !c.isWhitespace))

/-- createBusinessId (scrapper.js lines 139-142): lowercased,
whitespace-stripped concatenation of name, phone and address joined
by a dash. The JS reads item.name with a fallback to the empty string;
the Lean fields are always strings. -/
def createBusinessId (item : LeadRecord) : String :=
  jsStripWhitespace (jsToLower (item.name ++ "-" ++ item.phone ++ "-" ++ item.address))

/-- The normal form under which the fingerprint is claimed invariant:
lowercase the string and drop all whitespace. -/
def fpNorm (s : String) : String :=
  jsStripWhitespace (jsToLower s)

/-- The subset of the incoming batch kept by saveToExcel
(scrapper.js lines 144-155): rows whose business id is not among the
ids of the rows already in the destination. The JS Set of ids is a set
of exact strings; list membership over String matches it. -/
def uniqueNewData (existingData data : List LeadRecord) : List LeadRecord :=
  let existingBusinessIds := existingData.map createBusinessId
  data.filter (fun item => decide (createBusinessId item ∉ existingBusinessIds))

/-- saveToExcel (scrapper.js lines 123-179), modelled on the row lists:
given the rows read from the destination file (empty when the file does
not exist) and the incoming batch, the rewritten file holds the existing
rows followed by the non-duplicate incoming rows. -/
def saveToExcel (data existingData : List LeadRecord) : List LeadRecord :=
  existingData ++ uniqueNewData existingData data

theorem data_append (s t : String) : (s ++ t).data = s.data ++ t.data := rfl

theorem fpNorm_append (s t : String) : fpNorm (s ++ t) = fpNorm s ++ fpNorm t := by
  simp only [fpNorm, jsToLower, jsStripWhitespace, data_append, List.map_append,
    List.filter_append]
  rfl

theorem createBusinessId_eq_fpNorm (item : LeadRecord) :
    createBusinessId item =
      fpNorm item.name ++ fpNorm "-" ++ fpNorm item.phone ++ fpNorm "-" ++ fpNorm item.address := by
  simp only [createBusinessId]
  show fpNorm (item.name ++ "-" ++ item.phone ++ "-" ++ item.address) = _
  simp only [fpNorm_append]

theorem createBusinessId_congr {r1 r2 : LeadRecord}
    (hn : fpNorm r1.name = fpNorm r2.name)
    (hp : fpNorm r1.phone = fpNorm r2.phone)
    (ha : fpNorm r1.address = fpNorm r2.address) :
    createBusinessId r1 = createBusinessId r2 := by
  rw [createBusinessId_eq_fpNorm, createBusinessId_eq_fpNorm, hn, hp, ha]

theorem mem_map_createBusinessId {r : LeadRecord} {l : List LeadRecord}
    (h : r ∈ l) : createBusinessId r ∈ l.map createBusinessId :=
  List.mem_map_of_mem createBusinessId h

theorem not_mem_uniqueNewData_of_id_mem {r : LeadRecord}
    {existingData data : List LeadRecord}
    (h : createBusinessId r ∈ existingData.map createBusinessId) :
    r ∉ uniqueNewData existingData data := by
  intro hmem
  have := (List.mem_filter.mp hmem).2
  simp only [decide_eq_true_eq] at this
  exact this h

/-- Claim C1. Fingerprint stability: two lead records whose name, phone
and address agree after lowercasing and dropping all whitespace get the
same business id from createBusinessId, and when one of them is already
among the destination rows at the start of the tabular merge the other
is excluded from the batch appended by saveToExcel. -/
theorem fingerprint_stable (r1 r2 : LeadRecord)
    (existingData data : List LeadRecord)
    (hn : fpNorm r1.name = fpNorm r2.name)
    (hp : fpNorm r1.phone = fpNorm r2.phone)
    (ha : fpNorm r1.address = fpNorm r2.address) :
    createBusinessId r1 = createBusinessId r2 ∧
      (r1 ∈ existingData → r2 ∉ uniqueNewData existingData data) := by
  have hid := createBusinessId_congr hn hp ha
  refine ⟨hid, fun hmem => ?_⟩
  exact not_mem_uniqueNewData_of_id_mem (hid ▸ mem_map_createBusinessId hmem)

/-- Concrete instance of fingerprint stability: two records differing only
in case and whitespace of name, phone and address collide, and the second
is dropped from a merge whose destination already holds the first. -/
theorem fingerprint_stable_witness :
    (fpNorm "Joes Cafe" = fpNorm " joes  CAFE " ∧
       fpNorm "555 123 4567" = fpNorm "5551234567" ∧
       fpNorm "1 Main St" = fpNorm "1  MAIN st") ∧
      createBusinessId { name := "Joes Cafe", phone := "555 123 4567", address := "1 Main St" } =
        createBusinessId { name := " joes  CAFE ", phone := "5551234567", address := "1  MAIN st" } ∧
      ({ name := " joes  CAFE ", phone := "5551234567", address := "1  MAIN st" } : LeadRecord) ∉
        uniqueNewData [{ name := "Joes Cafe", phone := "555 123 4567", address := "1 Main St" }]
          [{ name := " joes  CAFE ", phone := "5551234567", address := "1  MAIN st" }] := by
  refine ⟨⟨by decide, by decide, by decide⟩, ?_⟩
  have h := fingerprint_stable
    { name := "Joes Cafe", phone := "555 123 4567", address := "1 Main St" }
    { name := " joes  CAFE ", phone := "5551234567", address := "1  MAIN st" }
    [{ name := "Joes Cafe", phone := "555 123 4567", address := "1 Main St" }]
    [{ name := " joes  CAFE ", phone := "5551234567", address := "1  MAIN st" }]
    (by decide) (by decide) (by decide)
  exact ⟨h.1, h.2 (List.mem_singleton.mpr rfl)⟩

/-- Claim C2. Dedup idempotence of the tabular merge: a second run of
saveToExcel with the same batch against the destination produced by the
first run appends no rows and leaves the destination row list unchanged. -/
theorem saveToExcel_idempotent (data existingData : List LeadRecord) :
    uniqueNewData (saveToExcel data existingData) data = [] ∧
      saveToExcel data (saveToExcel data existingData) = saveToExcel data existingData := by
  have hnil : uniqueNewData (saveToExcel data existingData) data = [] := by
    apply List.filter_eq_nil_iff.mpr
    intro item hitem
    simp only [Bool.not_eq_true, decide_eq_true_eq, Decidable.not_not]
    by_cases hid : createBusinessId item ∈ existingData.map createBusinessId
    · simp only [saveToExcel, List.map_append]
      exact List.mem_append_left _ hid
    · have hkeep : item ∈ uniqueNewData existingData data := by
        simp only [uniqueNewData, List.mem_filter]
        exact ⟨hitem, by simpa using hid⟩
      exact mem_map_createBusinessId (List.mem_append_right _ hkeep)
  refine ⟨hnil, ?_⟩
  show saveToExcel data existingData ++ uniqueNewData (saveToExcel data existingData) data =
    saveToExcel data existingData
  rw [hnil, List.append_nil]

/-- validateData (scrapper.js lines 100-104): the only rule pushes
the message for a missing or too-short name. JS falsiness of a string
is emptiness. -/
def validateData (item : LeadRecord) : List String :=
  if item.name = "" ∨ item.name.length < 2 then ["Invalid name"] else []

/-- qualifyLead (scrapper.js lines 106-121): requires at least one of
email or phone, and pushes the low-rating message when the rating is
negative; the commented-out website and review-count rules are absent. -/
def qualifyLead (item : LeadRecord) : List String :=
  (if item.email = "" ∧ item.phone = "" then ["No contact info"] else []) ++
    (if item.rating < 0 then ["Low rating"] else [])

/-- The apostrophe character, for building concrete business names. -/
def apostrophe : String := String.mk [Char.ofNat 39]

/-- The record of the first qualification scenario: no contact data,
rating 4. -/
def joesNoContact : LeadRecord :=
  { name := "Joe" ++ apostrophe ++ "s Cafe", phone := "", email := "", rating := 4 }

/-- The record of the second qualification scenario: phone present,
rating negative. -/
def joesLowRating : LeadRecord :=
  { name := "Joe" ++ apostrophe ++ "s Cafe", phone := "5551234567", rating := -1 }

/-- The record of the validation scenario: one-character name. -/
def oneLetterLead : LeadRecord :=
  { name := "A", phone := "5551234567" }

/-- Claim C4. Qualification and validation rules: the no-contact record
fails qualification with exactly the reason for missing contact info, the
negative-rating record fails with exactly the low-rating reason, the
one-character name fails validation with the invalid-name reason, and a
negative rating is the only rating-based disqualification: any record
with nonnegative rating, however large, never gets the low-rating reason. -/
theorem qualification_rules (item : LeadRecord) (h : 0 ≤ item.rating) :
    qualifyLead joesNoContact = ["No contact info"] ∧
      qualifyLead joesLowRating = ["Low rating"] ∧
      validateData oneLetterLead = ["Invalid name"] ∧
      "Low rating" ∉ qualifyLead item := by
  refine ⟨by decide, by decide, by decide, ?_⟩
  have hlt : ¬ item.rating < 0 := not_lt.mpr h
  simp only [qualifyLead, if_neg hlt, List.append_nil]
  by_cases hc : item.email = "" ∧ item.phone = "" <;> simp [hc]

/-- Concrete instance of the qualification rules, at a record whose
rating is 6 (above the usual 5-star scale) which still passes the
rating check. -/
theorem qualification_rules_witness :
    (0 : ℚ) ≤ (6 : ℚ) ∧
      "Low rating" ∉ qualifyLead { name := "Joes Cafe", phone := "5551234567", rating := 6 } :=
  ⟨by norm_num,
    (qualification_rules { name := "Joes Cafe", phone := "5551234567", rating := 6 }
      (by norm_num)).2.2.2⟩

/-! Classification adapter (slm-client.js) and its merge into a record
(enrichWithSLM, scrapper.js lines 15-53). -/

/-- The opening brace character. -/
def lbrace : Char := Char.ofNat 123

/-- The closing brace character. -/
def rbrace : Char := Char.ofNat 125

/-- Whether the regex of extractJSON (slm-client.js line 9), an opening
brace followed by anything up to a closing brace, matches the text:
some opening brace has a closing brace strictly after it. -/
def hasBraceBlock (s : String) : Bool :=
  match s.data.dropWhile (fun c => c ≠ lbrace) with
  | [] => false
  | _ :: rest => rest.contains rbrace

/-- The substring that the greedy regex of extractJSON matches: from the
first opening brace through the last closing brace of the text. -/
def braceMatch (s : String) : String :=
  String.mk ((((s.data.dropWhile (fun c => c ≠ lbrace)).reverse.dropWhile
    (fun c => c ≠ rbrace))).reverse)

/-- JS String.prototype.trim: drop leading and trailing whitespace. -/
def jsTrim (s : String) : String :=
  String.mk ((s.data.dropWhile Char.isWhitespace).reverse.dropWhile Char.isWhitespace).reverse

/-- JS .slice of the first 500 characters (slm-client.js line 62). -/
def first500 (s : String) : String :=
  String.mk (s.data.take 500)

/-- JS String.prototype.startsWith, on the character lists. -/
def jsStartsWith (s pat : String) : Bool :=
  pat.data.isPrefixOf s.data

/-- Whether pat occurs as a contiguous run inside the character list. -/
def dataIncludes (pat : List Char) : List Char → Bool
  | [] => pat.isEmpty
  | c :: cs => pat.isPrefixOf (c :: cs) || dataIncludes pat cs

/-- JS String.prototype.includes, on the character lists. -/
def jsIncludes (s pat : String) : Bool :=
  dataIncludes pat.data s.data

/-- The three-key result object of the classification service contract. -/
structure SLMResult where
  isRelevant : Bool
  cleanCategory : String
  summary : String
  deriving DecidableEq, Repr

/-- What the transport layer of callSLM delivers: a thrown error from
fetch or response.json (the catch branch at slm-client.js lines 64-67),
or the extracted message content, already defaulted to the empty string
when the choices path is missing (line 45). -/
inductive SLMTransport where
  | fail
  | ok (text : String)

/-- extractJSON (slm-client.js lines 8-16): when the brace regex matches,
JSON.parse is applied to the matched span; a parse failure or a missing
match yields null. JSON.parse of the span is passed in as an oracle since
its outcome depends only on the matched text. -/
def extractJSON (parse : String → Option SLMResult) (raw : String) : Option SLMResult :=
  if hasBraceBlock raw then parse (braceMatch raw) else none

/-- callSLM (slm-client.js lines 18-68). Total: every branch of the
source returns a value, the catch-all turning any transport error into
a fixed default. -/
def callSLM (parse : String → Option SLMResult) : SLMTransport → SLMResult
  | .fail => ⟨false, "", ""⟩
  | .ok text =>
    if text = "" then ⟨false, "", "No text generated"⟩
    else
      match extractJSON parse text with
      | some parsed => parsed
      | none => ⟨true, "Uncategorized", first500 (jsTrim text)⟩

/-- The record shape produced by the spread merge of enrichWithSLM
(scrapper.js lines 36-41): all original fields, the three classification
keys, and the audit copies of category and description. -/
structure EnrichedRecord where
  base : LeadRecord
  isRelevant : Bool
  cleanCategory : String
  summary : String
  originalCategory : String
  originalDescription : String
  deriving DecidableEq, Repr

/-- enrichWithSLM (scrapper.js lines 15-53): merges the callSLM result
over the item and stores the original category and description. The
catch branch of the source is dead code since callSLM never throws. -/
def enrichWithSLM (parse : String → Option SLMResult) (transport : SLMTransport)
    (item : LeadRecord) : EnrichedRecord :=
  let response := callSLM parse transport
  { base := item
    isRelevant := response.isRelevant
    cleanCategory := response.cleanCategory
    summary := response.summary
    originalCategory := item.category
    originalDescription := item.description }

/-- Claim C6 as frozen is refuted at the empty response text: it contains
no brace-delimited block, yet callSLM returns the no-text default, whose
isRelevant is false and whose summary is not the first 500 characters of
the trimmed text (which would be empty). -/
theorem callSLM_empty_text_counterexample :
    hasBraceBlock "" = false ∧
      callSLM (fun _ => none) (SLMTransport.ok "") =
        ⟨false, "", "No text generated"⟩ ∧
      (callSLM (fun _ => none) (SLMTransport.ok "")).isRelevant ≠ true := by
  refine ⟨rfl, rfl, ?_⟩
  intro h
  simp [callSLM] at h

/-- Claim C6, amended. callSLM is a total function of the transport
outcome: on a transport error it returns the all-empty default, on a
non-empty response text with no brace-delimited block it returns
isRelevant true, category Uncategorized and the first 500 characters of
the trimmed text, and on an empty response text it returns the no-text
default. -/
theorem callSLM_fallbacks (parse : String → Option SLMResult) (text : String)
    (hne : text ≠ "") (hnb : hasBraceBlock text = false) :
    callSLM parse SLMTransport.fail = ⟨false, "", ""⟩ ∧
      callSLM parse (SLMTransport.ok text) =
        ⟨true, "Uncategorized", first500 (jsTrim text)⟩ ∧
      callSLM parse (SLMTransport.ok "") = ⟨false, "", "No text generated"⟩ := by
  refine ⟨rfl, ?_, rfl⟩
  simp [callSLM, extractJSON, hne, hnb]

/-- Concrete instance of the callSLM fallbacks at the brace-free response
text "not json at all". -/
theorem callSLM_fallbacks_witness :
    "not json at all" ≠ "" ∧ hasBraceBlock "not json at all" = false ∧
      callSLM (fun _ => none) (SLMTransport.ok "not json at all") =
        ⟨true, "Uncategorized", "not json at all"⟩ := by
  refine ⟨by decide, by decide, ?_⟩
  have h := (callSLM_fallbacks (fun _ => none) "not json at all" (by decide) (by decide)).2.1
  rw [h]
  decide

/-- A concrete lead used to exercise the classification merge. -/
def plumberLead : LeadRecord :=
  { name := "Ace Plumbing", category := "Plumber", description := "Fixes pipes fast" }

/-- Claim C7 as frozen is refuted: on a brace-free response text the
merged result carries the Uncategorized fallback of callSLM, not the
claimed default of isRelevant false with the original category and
description; the catch branch of enrichWithSLM that would produce that
default is unreachable because callSLM never throws. -/
theorem enrichWithSLM_default_counterexample :
    hasBraceBlock "no json here" = false ∧
      (enrichWithSLM (fun _ => none) (SLMTransport.ok "no json here") plumberLead).isRelevant
        = true ∧
      (enrichWithSLM (fun _ => none) (SLMTransport.ok "no json here") plumberLead).cleanCategory
        = "Uncategorized" ∧
      "Uncategorized" ≠ plumberLead.category ∧ true ≠ false := by
  exact ⟨by decide, by decide, by decide, by decide, by decide⟩

/-- Claim C7, amended. The adapter extracts the greedy brace span of the
returned text, from its first opening brace through its last closing
brace, and parses that; for every record and every non-empty response
text for which that extraction or its parse fails, the merged result has
isRelevant true, cleanCategory Uncategorized and summary equal to the
first 500 characters of the trimmed text, the base record is unchanged,
and the original category and description are preserved in
originalCategory and originalDescription. -/
theorem enrichWithSLM_extraction_failure (parse : String → Option SLMResult)
    (text : String) (item : LeadRecord) (hne : text ≠ "")
    (hfail : extractJSON parse text = none) :
    (∀ raw, hasBraceBlock raw = true → extractJSON parse raw = parse (braceMatch raw)) ∧
      enrichWithSLM parse (SLMTransport.ok text) item =
        { base := item
          isRelevant := true
          cleanCategory := "Uncategorized"
          summary := first500 (jsTrim text)
          originalCategory := item.category
          originalDescription := item.description } := by
  constructor
  · intro raw hraw
    simp [extractJSON, hraw]
  · simp [enrichWithSLM, callSLM, hne, hfail]

/-- Concrete instance of the amended extraction-failure default: the
response text holds a brace block whose greedy span is not valid JSON
(the parse oracle rejects it), and the merge falls back to the
Uncategorized default while keeping the lead untouched. -/
theorem enrichWithSLM_extraction_failure_witness :
    "bad \x7bjson\x7d" ≠ "" ∧
      extractJSON (fun _ => none) "bad \x7bjson\x7d" = none ∧
      (enrichWithSLM (fun _ => none) (SLMTransport.ok "bad \x7bjson\x7d") plumberLead).summary
        = "bad \x7bjson\x7d" ∧
      (enrichWithSLM (fun _ => none) (SLMTransport.ok "bad \x7bjson\x7d") plumberLead).base
        = plumberLead := by
  refine ⟨by decide, by decide, ?_, ?_⟩
  · have h := (enrichWithSLM_extraction_failure (fun _ => none) "bad \x7bjson\x7d" plumberLead
      (by decide) (by decide)).2
    rw [h]
    decide
  · rfl

/-! Detail-enrichment and email-resolution stages. Page observations are
explicit inputs; the stage functions return the updated record. -/

/-- What the Google Maps detail page yields: the contact info of
extractContactInfoWithoutClicking (its catch returns empty strings), the
address probe result, and the extractDescription result. -/
structure GMDetailObs where
  phone : String := ""
  website : String := ""
  address : String := ""
  description : String := ""
  deriving Repr

/-- extractGoogleMapsContactInfo (scrapper.js lines 1536-1599): skipped
when the record has no detail URL or needs no details; otherwise phone
and website are filled only when observed non-empty and currently empty
(lines 1561-1563), address only when currently empty and observed
non-empty (lines 1566-1577), description only when currently empty
(lines 1581-1583), and detailsNeeded is cleared. The source assigns the
fields one at a time; each guard reads a field no earlier assignment
touches, so the simultaneous update below is the same function. -/
def extractGoogleMapsContactInfo (obs : GMDetailObs) (item : LeadRecord) : LeadRecord :=
  if item.detailUrl = "" ∨ item.detailsNeeded = false then item
  else
    { item with
      phone := if obs.phone ≠ "" ∧ item.phone = "" then obs.phone else item.phone
      website := if obs.website ≠ "" ∧ item.website = "" then obs.website else item.website
      address := if item.address = "" ∧ obs.address ≠ "" then obs.address else item.address
      description := if item.description = "" then obs.description else item.description
      detailsNeeded := false }

/-- What the Yellow Pages detail page yields: the result of
extractEmailFromYellowPages (null on failure) and the additional
description probe (null, or a non-empty string by its length guard). -/
structure YPDetailObs where
  email : Option String := none
  description : Option String := none
  deriving Repr

/-- scrapeYellowPagesDetail (scrapper.js lines 1101-1160): skipped when
the record has no detail URL or needs no details; otherwise the detail
URL is resolved against the site origin (lines 1109-1111), email is
assigned UNCONDITIONALLY from the page (line 1120, null modelled as the
empty string), the description is replaced by the additional description
when missing or shorter than 20 characters and the probe found a truthy
value (lines 1122-1146), and detailsNeeded is cleared. -/
def scrapeYellowPagesDetail (obs : YPDetailObs) (item : LeadRecord) : LeadRecord :=
  if item.detailUrl = "" ∨ item.detailsNeeded = false then item
  else
    { item with
      detailUrl := if jsStartsWith item.detailUrl "http" then item.detailUrl
        else "https://www.yellowpages.com" ++ item.detailUrl
      email := (obs.email.getD "")
      description :=
        if item.description = "" ∨ item.description.length < 20 then
          match obs.description with
          | some d => if d = "" then item.description else d
          | none => item.description
        else item.description
      detailsNeeded := false }

/-- The email-resolution loop body (scrapper.js lines 1975-2003): only a
record with a website and no email is touched; the extracted value (null
on failure, modelled as the empty string) is assigned to email. -/
def emailResolutionStage (found : Option String) (item : LeadRecord) : LeadRecord :=
  if item.website ≠ "" ∧ item.email = "" then { item with email := found.getD "" } else item

/-- A concrete Yellow Pages record holding an email before detail
enrichment runs. -/
def ypEmailLead : LeadRecord :=
  { name := "Joes Diner", email := "info@joesdiner.example",
    detailUrl := "/mip/joes-diner", detailsNeeded := true }

/-- A concrete Yellow Pages record holding a non-empty description
shorter than 20 characters before detail enrichment runs. -/
def ypShortDescLead : LeadRecord :=
  { name := "Joes Diner", description := "Nice cafe",
    detailUrl := "/mip/joes-diner", detailsNeeded := true }

/-- Claim C3 as frozen is refuted twice by the Yellow Pages detail
stage: it overwrites a non-empty email with the freshly extracted value,
here a failed extraction, clearing the field; and it replaces a
non-empty description shorter than 20 characters with a different
non-empty value found on the detail page. -/
theorem first_writer_wins_counterexample :
    ypEmailLead.email = "info@joesdiner.example" ∧
      (scrapeYellowPagesDetail { email := none, description := none } ypEmailLead).email = "" ∧
      "info@joesdiner.example" ≠ "" ∧
      ypShortDescLead.description = "Nice cafe" ∧
      (scrapeYellowPagesDetail
          { email := none,
            description := some "A fresh replacement description from the detail page" }
          ypShortDescLead).description
        = "A fresh replacement description from the detail page" ∧
      "Nice cafe" ≠ "" ∧
      "Nice cafe" ≠ "A fresh replacement description from the detail page" := by
  exact ⟨rfl, by decide, by decide, rfl, by decide, by decide, by decide⟩

/-- Claim C3, amended. First writer wins holds for the Google Maps
detail stage on all five fields, for the email-resolution stage, and for
the classification merge, which leaves every base field unchanged; the
Yellow Pages detail stage never touches phone, website or address and
preserves a description of length at least 20, but unconditionally
overwrites email with the freshly extracted value and may replace a
non-empty description shorter than 20 characters. In particular a phone
set non-empty by detail enrichment is never cleared or replaced later. -/
theorem first_writer_wins_amended (obs : GMDetailObs) (yobs : YPDetailObs)
    (found : Option String) (parse : String → Option SLMResult)
    (transport : SLMTransport) (item : LeadRecord) :
    (item.phone ≠ "" → (extractGoogleMapsContactInfo obs item).phone = item.phone) ∧
      (item.website ≠ "" → (extractGoogleMapsContactInfo obs item).website = item.website) ∧
      (item.address ≠ "" → (extractGoogleMapsContactInfo obs item).address = item.address) ∧
      (item.description ≠ "" →
        (extractGoogleMapsContactInfo obs item).description = item.description) ∧
      (extractGoogleMapsContactInfo obs item).email = item.email ∧
      (item.email ≠ "" → emailResolutionStage found item = item) ∧
      (enrichWithSLM parse transport item).base = item ∧
      (scrapeYellowPagesDetail yobs item).phone = item.phone ∧
      (scrapeYellowPagesDetail yobs item).website = item.website ∧
      (scrapeYellowPagesDetail yobs item).address = item.address ∧
      (20 ≤ item.description.length →
        (scrapeYellowPagesDetail yobs item).description = item.description) := by
  refine ⟨?_, ?_, ?_, ?_, ?_, ?_, rfl, ?_, ?_, ?_, ?_⟩
  · intro hp
    unfold extractGoogleMapsContactInfo
    split
    · rfl
    · simp [hp]
  · intro hw
    unfold extractGoogleMapsContactInfo
    split
    · rfl
    · simp [hw]
  · intro ha
    unfold extractGoogleMapsContactInfo
    split
    · rfl
    · simp [ha]
  · intro hd
    unfold extractGoogleMapsContactInfo
    split
    · rfl
    · simp [hd]
  · unfold extractGoogleMapsContactInfo
    split <;> rfl
  · intro he
    unfold emailResolutionStage
    simp [he]
  · unfold scrapeYellowPagesDetail
    split <;> rfl
  · unfold scrapeYellowPagesDetail
    split <;> rfl
  · unfold scrapeYellowPagesDetail
    split <;> rfl
  · intro h20
    have hd0 : ¬ (item.description = "" ∨ item.description.length < 20) := by
      rintro (he | hl)
      · rw [he] at h20; simp at h20
      · omega
    unfold scrapeYellowPagesDetail
    split
    · rfl
    · simp [hd0]

/-- A typical freshly-extracted record entering detail enrichment:
phone already set by an earlier write, empty description, email filled,
detailsNeeded still true. -/
def freshLead : LeadRecord :=
  { name := "Fresh Lead", phone := "555-1111", website := "https://fresh.example",
    email := "kept@fresh.example", description := "",
    detailUrl := "https://maps.example/fresh", detailsNeeded := true }

/-- Concrete instance of the amended first-writer-wins property, at a
freshly-extracted record whose description is empty: the phone set to
555-1111 is not replaced by an observed 555-2222 in the Google Maps
detail stage, and its non-empty email survives the email-resolution
stage unchanged. -/
theorem first_writer_wins_amended_witness :
    freshLead.phone ≠ "" ∧ freshLead.email ≠ "" ∧
      (extractGoogleMapsContactInfo { phone := "555-2222" } freshLead).phone = "555-1111" ∧
      emailResolutionStage (some "other@fresh.example") freshLead = freshLead := by
  have h := first_writer_wins_amended { phone := "555-2222" } {}
    (some "other@fresh.example") (fun _ => none) SLMTransport.fail freshLead
  exact ⟨by decide, by decide, (h.1 (by decide)).trans rfl, h.2.2.2.2.2.1 (by decide)⟩

/-! Dual-strategy record extraction (parseGoogleMapsAPIData, scrapper.js
lines 715-939, main branch 844-939, and the DOM fallback inside
scrapeGoogleMaps, lines 1203-1406). -/

/-- The non-JSON guard stripped from captures (scrapper.js line 853):
right parenthesis, right bracket, closing brace, apostrophe. -/
def xssiGuard : String := ")]\x7d" ++ apostrophe

/-- Strip the guard when present (scrapper.js lines 853-855). -/
def stripGuard (data : String) : String :=
  if jsStartsWith data xssiGuard then data.drop 4 else data

/-- The HTML-shape test of scrapper.js lines 857-863: leading doctype or
html tag after trimming, or an embedded body, div or script marker. -/
def isHTMLShaped (d : String) : Bool :=
  jsStartsWith (jsTrim d) "<!DOCTYPE" || jsStartsWith (jsTrim d) "<html" ||
    jsIncludes d "<body" || jsIncludes d "<div" || jsIncludes d "<script"

/-- The fields read off one business entry of a structured payload
(scrapper.js lines 903-920), after the positional-index-first,
named-field-second probing has resolved each to a string or number. -/
structure GMRaw where
  name : String := ""
  address : String := ""
  category : String := ""
  rating : ℚ := 0
  ratingCount : String := "0"
  phone : String := ""
  website : String := ""
  detailUrl : String := ""
  deriving Repr

/-- The item literal of the structured path (scrapper.js lines 907-921):
empty email and description, detailsNeeded true, no source field. -/
def mkAPIItem (b : GMRaw) : LeadRecord :=
  { name := b.name, address := b.address, category := b.category,
    rating := b.rating, ratingCount := b.ratingCount, phone := b.phone,
    website := b.website, email := "", description := "",
    detailsNeeded := true, detailUrl := b.detailUrl, source := "" }

/-- The inner loop of the structured path (scrapper.js lines 901-927):
entries with an empty name or a name already seen are skipped, all
others are pushed and their name recorded. Returns the pushed items and
the grown seen set (a list of exact strings, like the JS Set). -/
def gmExtractBusinesses : List GMRaw → List String → List LeadRecord × List String
  | [], seen => ([], seen)
  | b :: bs, seen =>
    if b.name = "" ∨ b.name ∈ seen then gmExtractBusinesses bs seen
    else
      let rest := gmExtractBusinesses bs (b.name :: seen)
      (mkAPIItem b :: rest.1, rest.2)

/-- The outer loop of the structured path (scrapper.js lines 848-931):
per captured response, strip the guard, skip HTML-shaped payloads, and
otherwise decode. The decode oracle stands for JSON.parse plus the
fixed-priority probing for the businesses array (lines 868-899); it
returns none when the parse fails or no array is found. The seen-name
set threads across all responses. -/
def gmAPIExtract (decode : String → Option (List GMRaw)) :
    List String → List String → List LeadRecord
  | [], _ => []
  | r :: rs, seen =>
    let d := stripGuard r
    if isHTMLShaped d then gmAPIExtract decode rs seen
    else
      match decode d with
      | none => gmAPIExtract decode rs seen
      | some bs =>
        (gmExtractBusinesses bs seen).1 ++ gmAPIExtract decode rs (gmExtractBusinesses bs seen).2

/-- parseGoogleMapsAPIData on a non-empty capture list (scrapper.js
lines 844-934): the extracted items, or null when there are none. -/
def parseGoogleMapsAPIData (decode : String → Option (List GMRaw))
    (responses : List String) : Option (List LeadRecord) :=
  if 0 < (gmAPIExtract decode responses []).length then
    some (gmAPIExtract decode responses [])
  else none

/-- The fields read off one DOM listing in the markup fallback pass
(scrapper.js lines 1313-1379), after the selector chains resolved. -/
structure DOMRaw where
  name : String := ""
  category : String := ""
  address : String := ""
  rating : ℚ := 0
  ratingCount : String := "0"
  phone : String := ""
  website : String := ""
  detailUrl : String := ""
  deriving Repr

/-- The item literal of the DOM fallback (scrapper.js lines 1383-1396). -/
def mkDOMItem (b : DOMRaw) : LeadRecord :=
  { name := b.name, category := b.category, address := b.address,
    rating := b.rating, ratingCount := b.ratingCount, phone := b.phone,
    website := b.website, email := "", description := "",
    detailsNeeded := true, detailUrl := b.detailUrl, source := "google_maps" }

/-- The markup fallback pass (scrapper.js lines 1313-1400): listings
with an empty name or a name already seen in this pass are skipped. -/
def gmDOMExtract : List DOMRaw → List String → List LeadRecord
  | [], _ => []
  | b :: bs, seen =>
    if b.name = "" ∨ b.name ∈ seen then gmDOMExtract bs seen
    else mkDOMItem b :: gmDOMExtract bs (b.name :: seen)

theorem gmExtractBusinesses_spec (bs : List GMRaw) :
    ∀ seen : List String,
      ((gmExtractBusinesses bs seen).1.map LeadRecord.name).Nodup ∧
        (∀ n ∈ (gmExtractBusinesses bs seen).1.map LeadRecord.name,
          n ∉ seen ∧ n ≠ "" ∧ n ∈ (gmExtractBusinesses bs seen).2) ∧
        seen ⊆ (gmExtractBusinesses bs seen).2 := by
  induction bs with
  | nil => intro seen; simp [gmExtractBusinesses]
  | cons b bs ih =>
    intro seen
    by_cases h : b.name = "" ∨ b.name ∈ seen
    · simpa [gmExtractBusinesses, h] using ih seen
    · obtain ⟨hne, hnotin⟩ := not_or.mp h
      obtain ⟨ih1, ih2, ih3⟩ := ih (b.name :: seen)
      have hsub : seen ⊆ (gmExtractBusinesses bs (b.name :: seen)).2 :=
        fun n hn => ih3 (List.mem_cons_of_mem _ hn)
      have hbmem : b.name ∈ (gmExtractBusinesses bs (b.name :: seen)).2 :=
        ih3 (List.mem_cons_self _ _)
      simp only [gmExtractBusinesses, if_neg h]
      refine ⟨?_, ?_, hsub⟩
      · simp only [List.map_cons, List.nodup_cons]
        refine ⟨fun hmem => ?_, ih1⟩
        have := (ih2 _ hmem).1
        exact this (List.mem_cons_self _ _)
      · intro n hn
        simp only [List.map_cons, List.mem_cons] at hn
        rcases hn with rfl | hn
        · exact ⟨hnotin, hne, hbmem⟩
        · obtain ⟨h1, h2, h3⟩ := ih2 _ hn
          exact ⟨fun hc => h1 (List.mem_cons_of_mem _ hc), h2, h3⟩

theorem gmAPIExtract_spec (decode : String → Option (List GMRaw))
    (rs : List String) :
    ∀ seen : List String,
      ((gmAPIExtract decode rs seen).map LeadRecord.name).Nodup ∧
        ∀ n ∈ (gmAPIExtract decode rs seen).map LeadRecord.name, n ∉ seen ∧ n ≠ "" := by
  induction rs with
  | nil => intro seen; simp [gmAPIExtract]
  | cons r rs ih =>
    intro seen
    show ((let d := stripGuard r; _ : List LeadRecord).map LeadRecord.name).Nodup ∧ _
    by_cases hhtml : isHTMLShaped (stripGuard r) = true
    · simpa [gmAPIExtract, hhtml] using ih seen
    · rcases hdec : decode (stripGuard r) with _ | bs
      · simpa [gmAPIExtract, hhtml, hdec] using ih seen
      · have heq : gmAPIExtract decode (r :: rs) seen =
            (gmExtractBusinesses bs seen).1 ++
              gmAPIExtract decode rs (gmExtractBusinesses bs seen).2 := by
          simp [gmAPIExtract, hhtml, hdec]
        obtain ⟨hb1, hb2, hb3⟩ := gmExtractBusinesses_spec bs seen
        obtain ⟨hr1, hr2⟩ := ih (gmExtractBusinesses bs seen).2
        rw [heq]
        constructor
        · rw [List.map_append]
          refine List.Nodup.append hb1 hr1 (fun n hn hn2 => ?_)
          exact (hr2 _ hn2).1 (hb2 _ hn).2.2
        · intro n hn
          rw [List.map_append, List.mem_append] at hn
          rcases hn with hn | hn
          · exact ⟨(hb2 _ hn).1, (hb2 _ hn).2.1⟩
          · exact ⟨fun hc => (hr2 _ hn).1 (hb3 hc), (hr2 _ hn).2⟩

theorem gmDOMExtract_spec (bs : List DOMRaw) :
    ∀ seen : List String,
      ((gmDOMExtract bs seen).map LeadRecord.name).Nodup ∧
        ∀ n ∈ (gmDOMExtract bs seen).map LeadRecord.name, n ∉ seen ∧ n ≠ "" := by
  induction bs with
  | nil => intro seen; simp [gmDOMExtract]
  | cons b bs ih =>
    intro seen
    by_cases h : b.name = "" ∨ b.name ∈ seen
    · simpa [gmDOMExtract, h] using ih seen
    · obtain ⟨hne, hnotin⟩ := not_or.mp h
      obtain ⟨ih1, ih2⟩ := ih (b.name :: seen)
      simp only [gmDOMExtract, if_neg h]
      constructor
      · simp only [List.map_cons, List.nodup_cons]
        exact ⟨fun hmem => (ih2 _ hmem).1 (List.mem_cons_self _ _), ih1⟩
      · intro n hn
        simp only [List.map_cons, List.mem_cons] at hn
        rcases hn with rfl | hn
        · exact ⟨hnotin, hne⟩
        · exact ⟨fun hc => (ih2 _ hn).1 (List.mem_cons_of_mem _ hc), (ih2 _ hn).2⟩

/-- Claim C5. HTML-shaped payloads bypass JSON parsing: a captured
response that is HTML-shaped after guard-stripping contributes no
records, whatever the JSON decode oracle would say about it, and when
every captured response of a non-empty capture list is HTML-shaped the
primary path returns null, which is what triggers the markup fallback. -/
theorem html_shaped_bypasses_json (r : String)
    (hr : isHTMLShaped (stripGuard r) = true) :
    (∀ decode rs seen, gmAPIExtract decode (r :: rs) seen = gmAPIExtract decode rs seen) ∧
      ∀ decode responses, responses ≠ [] →
        (∀ d ∈ responses, isHTMLShaped (stripGuard d) = true) →
        parseGoogleMapsAPIData decode responses = none := by
  constructor
  · intro decode rs seen
    simp [gmAPIExtract, hr]
  · intro decode responses _ hall
    have hempty : ∀ l : List String, (∀ d ∈ l, isHTMLShaped (stripGuard d) = true) →
        ∀ seen, gmAPIExtract decode l seen = [] := by
      intro l
      induction l with
      | nil => intro _ seen; rfl
      | cons x xs ih =>
        intro hl seen
        have hx := hl x (List.mem_cons_self _ _)
        have := ih (fun d hd => hl d (List.mem_cons_of_mem _ hd)) seen
        simp [gmAPIExtract, hx, this]
    simp [parseGoogleMapsAPIData, hempty responses hall []]

/-- Concrete instance of the HTML bypass: a pure-HTML capture yields
null even though the decode oracle would have produced a record. -/
theorem html_shaped_bypasses_json_witness :
    isHTMLShaped (stripGuard "<html><head></head><body>x</body></html>") = true ∧
      parseGoogleMapsAPIData (fun _ => some [{ name := "Ghost Cafe" }])
        ["<html><head></head><body>x</body></html>"] = none := by
  refine ⟨by decide, ?_⟩
  exact (html_shaped_bypasses_json "<html><head></head><body>x</body></html>" (by decide)).2
    (fun _ => some [{ name := "Ghost Cafe" }])
    ["<html><head></head><body>x</body></html>"]
    (by simp)
    (by intro d hd; rw [List.mem_singleton.mp hd]; decide)

/-- Claim C8 as frozen is refuted: both Google Maps passes keep a
one-character name, so not every returned name has length at least 2;
only the Yellow Pages markup extractor enforces the length bound. -/
theorem extractor_name_length_counterexample :
    (gmAPIExtract (fun _ => some [{ name := "A" }]) ["payload"] []).map LeadRecord.name
        = ["A"] ∧
      ¬ 2 ≤ "A".length ∧
      (gmDOMExtract [{ name := "B" }] []).map LeadRecord.name = ["B"] ∧
      ¬ 2 ≤ "B".length := by
  exact ⟨by decide, by decide, by decide, by decide⟩

/-- Claim C8, amended. In the Google Maps structured-payload pass and in
its markup fallback pass, an entry whose extracted name is empty is
discarded and an entry whose name equals that of an earlier entry of the
same pass is discarded, so each pass returns records with pairwise
distinct, non-empty names; names of length 1 are kept, the
length-at-least-2 rule being enforced only by the separate Yellow Pages
markup extractor. -/
theorem extractor_name_rules (decode : String → Option (List GMRaw))
    (responses : List String) (listings : List DOMRaw) :
    ((gmAPIExtract decode responses []).map LeadRecord.name).Nodup ∧
      (∀ rcd ∈ gmAPIExtract decode responses [], rcd.name ≠ "") ∧
      ((gmDOMExtract listings []).map LeadRecord.name).Nodup ∧
      ∀ rcd ∈ gmDOMExtract listings [], rcd.name ≠ "" := by
  obtain ⟨h1, h2⟩ := gmAPIExtract_spec decode responses []
  obtain ⟨h3, h4⟩ := gmDOMExtract_spec listings []
  exact ⟨h1, fun rcd hr => (h2 _ (List.mem_map_of_mem _ hr)).2,
    h3, fun rcd hr => (h4 _ (List.mem_map_of_mem _ hr)).2⟩

/-! The Google Maps scroll loop (autoScrollGoogleMaps, scrapper.js lines
309-349). The rendered-result count observed at each cycle is an input
sequence; the loop state is the cycle index, previousCount and retries,
both starting at 0. Fuel makes the recursion structural; none means the
fuel ran out before the loop stopped. -/

/-- How the scroll loop stopped: target reached (scrapper.js lines
322-325) or three consecutive cycles without a new count (lines
344-347), together with the count observed at the stopping cycle. -/
inductive ScrollStop where
  | reached (count : Nat)
  | plateau (count : Nat)
  deriving DecidableEq, Repr

/-- autoScrollGoogleMaps (scrapper.js lines 309-349): each cycle reads
the current count, stops when it reaches the target, otherwise scrolls,
increments retries when the count did not change (resetting it and
updating previousCount when it did), and stops after retries reaches 3. -/
def autoScrollGoogleMaps (counts : Nat → Nat) (maxResults : Nat) :
    Nat → Nat → Nat → Nat → Option ScrollStop
  | 0, _, _, _ => none
  | fuel + 1, t, prev, retries =>
    if maxResults ≤ counts t then some (.reached (counts t))
    else
      if counts t = prev then
        if 3 ≤ retries + 1 then some (.plateau (counts t))
        else autoScrollGoogleMaps counts maxResults fuel (t + 1) prev (retries + 1)
      else autoScrollGoogleMaps counts maxResults fuel (t + 1) (counts t) 0

theorem autoScroll_succ (counts : Nat → Nat) (maxResults fuel t prev retries : Nat) :
    autoScrollGoogleMaps counts maxResults (fuel + 1) t prev retries =
      if maxResults ≤ counts t then some (.reached (counts t))
      else
        if counts t = prev then
          if 3 ≤ retries + 1 then some (.plateau (counts t))
          else autoScrollGoogleMaps counts maxResults fuel (t + 1) prev (retries + 1)
        else autoScrollGoogleMaps counts maxResults fuel (t + 1) (counts t) 0 := rfl

theorem autoScroll_mono (counts : Nat → Nat) (maxResults : Nat) :
    ∀ fuel fuel' t prev retries r, fuel ≤ fuel' →
      autoScrollGoogleMaps counts maxResults fuel t prev retries = some r →
      autoScrollGoogleMaps counts maxResults fuel' t prev retries = some r := by
  intro fuel
  induction fuel with
  | zero =>
    intro fuel' t prev retries r _ h
    simp [autoScrollGoogleMaps] at h
  | succ fuel ih =>
    intro fuel' t prev retries r hle h
    obtain ⟨fuel'', rfl⟩ : ∃ k, fuel' = k + 1 := by
      cases fuel' with
      | zero => omega
      | succ k => exact ⟨k, rfl⟩
    have hle' : fuel ≤ fuel'' := by omega
    simp only [autoScrollGoogleMaps] at h ⊢
    split_ifs at h ⊢
    · exact h
    · exact h
    · exact ih _ _ _ _ _ hle' h
    · exact ih _ _ _ _ _ hle' h

theorem autoScroll_const (counts : Nat → Nat) (maxResults C : Nat)
    (hC : ¬ maxResults ≤ C) :
    ∀ k t retries, (∀ u, t ≤ u → counts u = C) → 2 ≤ retries + k →
      ∃ r, autoScrollGoogleMaps counts maxResults (k + 1) t C retries = some r := by
  intro k
  induction k with
  | zero =>
    intro t retries hconst h2
    have hct : counts t = C := hconst t le_rfl
    have h3 : 3 ≤ retries + 1 := by omega
    exact ⟨.plateau C,
      by rw [autoScroll_succ, hct, if_neg hC, if_pos rfl, if_pos h3]⟩
  | succ k ih =>
    intro t retries hconst h2
    have hct : counts t = C := hconst t le_rfl
    by_cases h3 : 3 ≤ retries + 1
    · exact ⟨.plateau C,
        by rw [autoScroll_succ, hct, if_neg hC, if_pos rfl, if_pos h3]⟩
    · obtain ⟨r, hr⟩ := ih (t + 1) (retries + 1)
        (fun u hu => hconst u (by omega)) (by omega)
      exact ⟨r,
        by rw [autoScroll_succ, hct, if_neg hC, if_pos rfl, if_neg h3]; exact hr⟩

theorem autoScroll_term_from_const (counts : Nat → Nat) (maxResults C : Nat) :
    ∀ t prev retries, (∀ u, t ≤ u → counts u = C) →
      ∃ r, autoScrollGoogleMaps counts maxResults 6 t prev retries = some r := by
  intro t prev retries hconst
  have hct : counts t = C := hconst t le_rfl
  have h6 : (6 : Nat) = 5 + 1 := rfl
  by_cases hC : maxResults ≤ C
  · exact ⟨.reached C, by rw [h6, autoScroll_succ, hct, if_pos hC]⟩
  · by_cases hprev : C = prev
    · subst hprev
      by_cases h3 : 3 ≤ retries + 1
      · exact ⟨.plateau C,
          by rw [h6, autoScroll_succ, hct, if_neg hC, if_pos rfl, if_pos h3]⟩
      · obtain ⟨r, hr⟩ := autoScroll_const counts maxResults C hC 4 (t + 1) (retries + 1)
          (fun u hu => hconst u (by omega)) (by omega)
        exact ⟨r,
          by rw [h6, autoScroll_succ, hct, if_neg hC, if_pos rfl, if_neg h3]; exact hr⟩
    · have hne : C ≠ prev := hprev
      obtain ⟨r, hr⟩ := autoScroll_const counts maxResults C hC 4 (t + 1) 0
        (fun u hu => hconst u (by omega)) (by omega)
      refine ⟨r, ?_⟩
      rw [h6, autoScroll_succ, hct, if_neg hC, if_neg hne]
      exact hr

theorem autoScroll_term_aux (counts : Nat → Nat) (maxResults C N : Nat)
    (hconst : ∀ u, N ≤ u → counts u = C) :
    ∀ d t prev retries, N ≤ t + d →
      ∃ r, autoScrollGoogleMaps counts maxResults (d + 6) t prev retries = some r := by
  intro d
  induction d with
  | zero =>
    intro t prev retries hN
    exact autoScroll_term_from_const counts maxResults C t prev retries
      (fun u hu => hconst u (by omega))
  | succ d ih =>
    intro t prev retries hN
    by_cases hNt : N ≤ t
    · obtain ⟨r, hr⟩ := autoScroll_term_from_const counts maxResults C t prev retries
        (fun u hu => hconst u (by omega))
      exact ⟨r, autoScroll_mono counts maxResults 6 (d + 1 + 6) t prev retries r (by omega) hr⟩
    · have heq : d + 1 + 6 = (d + 6) + 1 := by omega
      rw [heq, autoScroll_succ]
      split_ifs
      · exact ⟨_, rfl⟩
      · exact ⟨_, rfl⟩
      · exact ih (t + 1) prev (retries + 1) (by omega)
      · exact ih (t + 1) (counts t) 0 (by omega)

theorem autoScroll_reached_le (counts : Nat → Nat) (maxResults : Nat) :
    ∀ fuel t prev retries c,
      autoScrollGoogleMaps counts maxResults fuel t prev retries = some (.reached c) →
      maxResults ≤ c := by
  intro fuel
  induction fuel with
  | zero => intro t prev retries c h; simp [autoScrollGoogleMaps] at h
  | succ fuel ih =>
    intro t prev retries c h
    simp only [autoScrollGoogleMaps] at h
    split_ifs at h with h1 h2 h3
    · obtain rfl : counts t = c := by injection h with h; injection h
      exact h1
    · simp at h
    · exact ih _ _ _ _ h
    · exact ih _ _ _ _ h

theorem autoScroll_plateau_lt (counts : Nat → Nat) (maxResults : Nat) :
    ∀ fuel t prev retries c,
      autoScrollGoogleMaps counts maxResults fuel t prev retries = some (.plateau c) →
      c < maxResults := by
  intro fuel
  induction fuel with
  | zero => intro t prev retries c h; simp [autoScrollGoogleMaps] at h
  | succ fuel ih =>
    intro t prev retries c h
    simp only [autoScrollGoogleMaps] at h
    split_ifs at h with h1 h2 h3
    · simp at h
    · obtain rfl : counts t = c := by injection h with h; injection h
      omega
    · exact ih _ _ _ _ h
    · exact ih _ _ _ _ h

/-- Claim C9. Scroll-loop termination and stop condition: for every
target and every count sequence that is non-decreasing and eventually
constant, the loop stops with some fuel; a reached stop always carries a
count at or above the target and a plateau stop (three consecutive
cycles without increase) a count below it; and on the concrete scenario
with target 50 and a listing growing by 10 up to a plateau of 30, the
loop stops reporting a plateau of 30, not 50. -/
theorem scroll_loop_terminates (counts : Nat → Nat) (maxResults N C : Nat)
    (_hmono : ∀ i j, i ≤ j → counts i ≤ counts j)
    (hconst : ∀ t, N ≤ t → counts t = C) :
    (∃ fuel r, autoScrollGoogleMaps counts maxResults fuel 0 0 0 = some r) ∧
      (∀ fuel t prev retries c,
        autoScrollGoogleMaps counts maxResults fuel t prev retries = some (.reached c) →
        maxResults ≤ c) ∧
      (∀ fuel t prev retries c,
        autoScrollGoogleMaps counts maxResults fuel t prev retries = some (.plateau c) →
        c < maxResults) ∧
      autoScrollGoogleMaps (fun t => min (10 * (t + 1)) 30) 50 10 0 0 0 =
        some (.plateau 30) := by
  refine ⟨?_, ?_, ?_, by decide⟩
  · obtain ⟨r, hr⟩ := autoScroll_term_aux counts maxResults C N hconst N 0 0 0 (by omega)
    exact ⟨N + 6, r, hr⟩
  · exact autoScroll_reached_le counts maxResults
  · exact autoScroll_plateau_lt counts maxResults

/-- Concrete instance of scroll-loop termination, at the constant count
sequence 30 with target 50. -/
theorem scroll_loop_terminates_witness :
    ∃ fuel r, autoScrollGoogleMaps (fun _ => 30) 50 fuel 0 0 0 = some r :=
  (scroll_loop_terminates (fun _ => 30) 50 0 30 (fun _ _ _ => le_rfl) (fun _ _ => rfl)).1

/-! The Yellow Pages page loop (scrapeYellowPages, scrapper.js lines
1601-1774). What each page visit yields is an input sequence indexed by
iteration; fuel makes the while loop structural. -/

/-- One iteration's environment outcome: navigation threw (the outer
catch, scrapper.js lines 1755-1759), the wait for results timed out (the
inner catch with continue, lines 1642-1646), or the page was extracted,
yielding its listings and whether a next-page control is present. -/
inductive YPPageOutcome where
  | navFail
  | waitFail
  | ok (listings : List LeadRecord) (hasNext : Bool)

/-- The while loop of scrapeYellowPages: runs while the accumulated
listings are below the target, more pages are believed available and
fewer than 3 consecutive failures happened. On navFail the failure count
grows and the page number still advances (the increment at line 1765 is
guarded only by hasMorePages); on waitFail the continue skips the
increment; on a page with listings they are appended and the failure
count resets, an empty page counting as a failure; hasMorePages becomes
next-control-present and target-unmet (line 1754). Exhausted fuel
returns the accumulator. -/
def scrapeYPLoop (oracle : Nat → YPPageOutcome) (maxResults : Nat) :
    Nat → Nat → Nat → List LeadRecord → Nat → Bool → List LeadRecord
  | 0, _, _, acc, _, _ => acc
  | fuel + 1, t, currentPage, acc, fails, hasMore =>
    if acc.length < maxResults ∧ hasMore = true ∧ fails < 3 then
      match oracle t with
      | .navFail =>
        scrapeYPLoop oracle maxResults fuel (t + 1)
          (if hasMore then currentPage + 1 else currentPage) acc (fails + 1) hasMore
      | .waitFail =>
        scrapeYPLoop oracle maxResults fuel (t + 1) currentPage acc (fails + 1) hasMore
      | .ok listings hasNext =>
        let acc' := if listings.isEmpty then acc else acc ++ listings
        let fails' := if listings.isEmpty then fails + 1 else 0
        let hasMore' := hasNext && decide (acc'.length < maxResults)
        scrapeYPLoop oracle maxResults fuel (t + 1)
          (if hasMore' then currentPage + 1 else currentPage) acc' fails' hasMore'
    else acc

/-- scrapeYellowPages (scrapper.js lines 1601-1774): run the page loop
from page 1 with nothing accumulated, then return at most the first
maxResults listings (the slice at line 1773). -/
def scrapeYellowPages (oracle : Nat → YPPageOutcome) (maxResults fuel : Nat) :
    List LeadRecord :=
  (scrapeYPLoop oracle maxResults fuel 0 1 [] 0 true).take maxResults

/-- Claim C10. Yellow Pages result cap: whatever the environment yields
on each page and however many listings accumulate across pages,
scrapeYellowPages returns at most maxResults records. -/
theorem scrapeYellowPages_cap (oracle : Nat → YPPageOutcome) (maxResults fuel : Nat) :
    (scrapeYellowPages oracle maxResults fuel).length ≤ maxResults := by
  unfold scrapeYellowPages
  rw [List.length_take]
  exact min_le_left _ _

end LeadsScrapper
